import Mathlib

/-!
Verification of the lunar-lander runtime/scripting/document-store system.

The Go sources are shallowly embedded:
* dynamic Go values (`any` holding JSON-like data) become the inductive `Value`,
  with `vFloat` carrying an exact rational in place of IEEE float64 and
  `vJsonNum` carrying a `json.Number`'s raw text together with the result of
  its `Float64()` parse;
* Go maps become association lists with unique keys (Go map iteration order is
  unspecified, so list order is a representation choice; map assignment is the
  first-occurrence replace-or-append operation `setKV`);
* fallible persistence is threaded through an explicit `diskOk : Bool`
  argument standing for the outcome of the `os.WriteFile`/`os.MkdirAll` calls;
* the runtime lifecycle (read-write lock around the live runtime pointer)
  becomes a labelled transition system on `RtState`.
-/

namespace Lander

/-- Dynamic value model for the `db` package: the subset of Go `any` values that
occur in records (JSON scalars, arrays, objects).  `vInt` covers Go `int`/`int64`,
`vFloat` covers `float64`/`float32` (idealized as exact rationals),
`vJsonNum raw parsed` covers `encoding/json.Number` with the result of `Float64()`. -/
inductive Value where
  | vNull
  | vBool (b : Bool)
  | vStr (s : String)
  | vInt (n : ℤ)
  | vFloat (q : ℚ)
  | vJsonNum (raw : String) (parsed : Option ℚ)
  | vArr (items : List Value)
  | vObj (fields : List (String × Value))

/-- Translation of `db.numberValue` (store.go): recognizes the numeric-like
variants and returns their numeric value; `json.Number` contributes its
`Float64()` parse when that parse succeeded. -/
def numberValue : Value → Option ℚ
  | .vInt n => some (n : ℚ)
  | .vFloat q => some q
  | .vJsonNum _ parsed => parsed
  | _ => none

mutual
/-- Model of `reflect.DeepEqual` on the `Value` universe: structural equality,
with Go maps compared by key set and per-key deep equality (the embedding keeps
object field lists keyed uniquely, mirroring Go maps). -/
def deepEqual : Value → Value → Bool
  | .vNull, .vNull => true
  | .vBool a, .vBool b => decide (a = b)
  | .vStr a, .vStr b => decide (a = b)
  | .vInt a, .vInt b => decide (a = b)
  | .vFloat a, .vFloat b => decide (a = b)
  | .vJsonNum r₁ p₁, .vJsonNum r₂ p₂ => decide (r₁ = r₂) && decide (p₁ = p₂)
  | .vArr a, .vArr b => deepEqualArr a b
  | .vObj a, .vObj b => decide (a.length = b.length) && deepEqualObjIncl a b
  | _, _ => false

/-- Slices compare element-wise in `reflect.DeepEqual`. -/
def deepEqualArr : List Value → List Value → Bool
  | [], [] => true
  | x :: xs, y :: ys => deepEqual x y && deepEqualArr xs ys
  | _, _ => false

/-- One-sided map inclusion used (together with equal cardinality) for
`reflect.DeepEqual` on maps: every key of the first map is present in the
second with a deeply equal value. -/
def deepEqualObjIncl : List (String × Value) → List (String × Value) → Bool
  | [], _ => true
  | (k, v) :: rest, b =>
      (match b.lookup k with
        | some w => deepEqual v w
        | none => false) && deepEqualObjIncl rest b
end

/-- Translation of `db.valuesEqual` (store.go): if both sides are numeric-like,
compare numerically; otherwise fall back to `reflect.DeepEqual`. -/
def valuesEqual (left right : Value) : Bool :=
  match numberValue left, numberValue right with
  | some l, some r => decide (l = r)
  | _, _ => deepEqual left right

/-- A `db.Record` is a string-keyed map; embedded as an association list with
unique keys. -/
abbrev Rec := List (String × Value)

/-- Translation of `db.matches` (store.go): vacuously true for empty criteria,
otherwise every criterion key must be present in the record with a
`valuesEqual` value. -/
def recMatches (record criteria : Rec) : Bool :=
  if criteria.isEmpty then true
  else criteria.all fun kv =>
    match record.lookup kv.1 with
    | some actual => valuesEqual actual kv.2
    | none => false

/-- Go map assignment `m[k] = v` on the association-list representation:
replace the binding for `k` if present, otherwise append it. -/
def setKV {α : Type} (data : List (String × α)) (k : String) (v : α) :
    List (String × α) :=
  match data with
  | [] => [(k, v)]
  | (k₁, v₁) :: rest => if k₁ = k then (k, v) :: rest else (k₁, v₁) :: setKV rest k v

/-- Translation of `db.cloneRecord` (store.go): a fresh map receiving every
top-level binding of the record.  At this structural level the copy carries the
same bindings; the aliasing consequences of the per-key (shallow) copy are
analysed separately on the `GoMap` model below. -/
def cloneRecord (record : Rec) : Rec :=
  record.map fun kv => kv

/-- Translation of the `db.Store` struct (store.go): persistence path (empty
means memory-only), collections map, and the next id to assign. -/
structure Store where
  path : String
  data : List (String × List Rec)
  nextID : ℤ

/-- Reading `s.data[collection]` from the Go map: a missing collection reads as
the nil (empty) slice. -/
def getColl (data : List (String × List Rec)) (c : String) : List Rec :=
  (data.lookup c).getD []

/-- Go float-to-int conversion `int(f)`: truncation toward zero. -/
def goTrunc (q : ℚ) : ℤ :=
  if 0 ≤ q then ⌊q⌋ else ⌈q⌉

/-- One step of the scan in `db.Store.maxID`: fold a record's `id` into the
running maximum when it is numeric-like. -/
def idBump (acc : ℤ) (record : Rec) : ℤ :=
  match (record.lookup "id").bind numberValue with
  | some q => if goTrunc q > acc then goTrunc q else acc
  | none => acc

/-- Translation of `db.Store.maxID` (store.go): the largest truncated numeric
`id` over all records of all collections, starting from 0. -/
def maxID (data : List (String × List Rec)) : ℤ :=
  data.foldl (fun acc p => p.2.foldl idBump acc) 0

/-- Translation of `db.Open` (store.go).  The file-system interaction is
abstracted into `file`: `none` models an empty path target that is missing or
has empty contents, `some d` models a successfully parsed JSON payload.  (A
stat/read/parse failure makes `Open` return an error and no store; those
branches construct nothing and are outside the model.) -/
def openStore (path : String) (file : Option (List (String × List Rec))) : Store :=
  if path = "" then ⟨path, [], 1⟩
  else
    match file with
    | none => ⟨path, [], 1⟩
    | some d => ⟨path, d, maxID d + 1⟩

/-- Translation of `db.Store.saveLocked` (store.go): with an empty path the
store is memory-only and saving trivially succeeds; otherwise the outcome is
the abstracted disk outcome `diskOk`. -/
def saveLocked (s : Store) (diskOk : Bool) : Bool :=
  if s.path = "" then true else diskOk

/-- Translation of `db.Store.Query` (store.go): empty collection names are
rejected; otherwise return clones of the records satisfying `recMatches`.
The store value is returned unchanged (the Go method never writes it). -/
def Store.Query (s : Store) (collection : String) (criteria : Rec) :
    Except String (List Rec) × Store :=
  if collection = "" then (.error "collection is required", s)
  else
    (.ok (((getColl s.data collection).filter fun r => recMatches r criteria).map
        cloneRecord), s)

/-- Translation of `db.Store.Insert` (store.go): clone the supplied record,
assign `nextID` as its `id` only when it lacks one, append it to the
collection, persist, and return a clone of the stored record. -/
def Store.Insert (s : Store) (collection : String) (record : Rec) (diskOk : Bool) :
    Except String Rec × Store :=
  if collection = "" then (.error "collection is required", s)
  else
    let copy := cloneRecord record
    let assigned := (copy.lookup "id").isNone
    let stored := if assigned then setKV copy "id" (.vInt s.nextID) else copy
    let s₁ : Store :=
      { s with
        nextID := if assigned then s.nextID + 1 else s.nextID
        data := setKV s.data collection (getColl s.data collection ++ [stored]) }
    (if saveLocked s₁ diskOk then .ok (cloneRecord stored) else .error "save failed", s₁)

/-- Merging `updates` over a record, as the inner loop of `db.Store.Update`
does with Go map assignments. -/
def mergeRecord (record updates : Rec) : Rec :=
  updates.foldl (fun acc kv => setKV acc kv.1 kv.2) record

/-- Translation of `db.Store.Update` (store.go): merge the patch over every
matching record, persist once, and return the number updated — except that a
failed save reports the count as 0 alongside the error, with the in-memory
merge already performed. -/
def Store.Update (s : Store) (collection : String) (criteria updates : Rec)
    (diskOk : Bool) : (ℤ × Option String) × Store :=
  if collection = "" then ((0, some "collection is required"), s)
  else
    let records := getColl s.data collection
    let merged := records.map fun r => if recMatches r criteria then mergeRecord r updates else r
    let updated : ℤ := (records.filter fun r => recMatches r criteria).length
    let s₁ : Store := { s with data := setKV s.data collection merged }
    (if saveLocked s₁ diskOk then (updated, none) else (0, some "save failed"), s₁)

/-- Translation of `db.Store.Delete` (store.go): drop every matching record,
persist once, and return the number removed — except that a failed save
reports the count as 0 alongside the error, with the in-memory removal already
performed. -/
def Store.Delete (s : Store) (collection : String) (criteria : Rec)
    (diskOk : Bool) : (ℤ × Option String) × Store :=
  if collection = "" then ((0, some "collection is required"), s)
  else
    let records := getColl s.data collection
    let remaining := records.filter fun r => !recMatches r criteria
    let deleted : ℤ := (records.filter fun r => recMatches r criteria).length
    let s₁ : Store := { s with data := setKV s.data collection remaining }
    (if saveLocked s₁ diskOk then (deleted, none) else (0, some "save failed"), s₁)

/-- Translation of the `sugardb.Store` struct (store.go): a guarded map from
keys to values.  The read-write lock makes every operation observe a single
map state, so the sequential association-list model is faithful. -/
structure KVStore where
  data : List (String × Value)

/-- Translation of `sugardb.Store.Get`. -/
def KVStore.Get (s : KVStore) (key : String) : Option Value :=
  s.data.lookup key

/-- Translation of `sugardb.Store.Set`. -/
def KVStore.Set (s : KVStore) (key : String) (value : Value) : KVStore :=
  ⟨setKV s.data key value⟩

/-- Translation of `sugardb.Store.Delete`: reports whether the key was
present and removes it. -/
def KVStore.Del (s : KVStore) (key : String) : Bool × KVStore :=
  if (s.data.lookup key).isSome then
    (true, ⟨s.data.filter fun kv => kv.1 ≠ key⟩)
  else (false, s)

/-- Translation of `sugardb.Store.Keys` (store.go): collect every key of the
map.  Go map iteration order is unspecified; the model exposes the keys in
representation order, unsorted, exactly as the method does. -/
def KVStore.Keys (s : KVStore) : List String :=
  s.data.map Prod.fst

/-- Translation of `sugarKeys` (sugardb_module.go): the `keys()` operation the
bridge exposes to scripts — `store.Keys()` followed by `sort.Strings`. -/
def sugarKeys (s : KVStore) : List String :=
  (KVStore.Keys s).mergeSort fun a b => decide (a ≤ b)

/-! ### Aliasing model for `cloneRecord`

Go records are `map[string]any`.  Values of reference type stored in a record
(nested `map[string]any`, `[]any`) are copied *by reference* when assigned.
`HeapVal` distinguishes the two kinds, and a `GoMap` carries the address of
its own backing map object, so freshness of the top-level map and sharing of
nested containers are both expressible. -/

/-- A Go value as stored in a record: either a value type (copied by value on
assignment) or a reference to a heap container (assignment copies the
reference, not the contents). -/
inductive HeapVal where
  | scalarV (v : Value)
  | refV (addr : ℕ)

/-- A Go `map[string]any` object: the address of its backing store plus its
bindings. -/
structure GoMap where
  addr : ℕ
  fields : List (String × HeapVal)

/-- Translation of `db.cloneRecord` (store.go) at the reference level:
`make(Record, len(record))` allocates a fresh map object (`freshAddr`), and
the loop copies every binding as-is — for a reference-typed value, the copied
binding still holds the same address. -/
def cloneRecordAlias (freshAddr : ℕ) (record : GoMap) : GoMap :=
  ⟨freshAddr, record.fields⟩

/-- The addresses of the nested containers a record refers to. -/
def nestedRefs (m : GoMap) : List ℕ :=
  m.fields.filterMap fun kv =>
    match kv.2 with
    | .refV a => some a
    | .scalarV _ => none

/-- Two records share nested mutable state when some heap address is
reachable from both. -/
def sharesNestedRef (a b : GoMap) : Bool :=
  (nestedRefs a).any fun x => (nestedRefs b).contains x

/-! ### Scripting-bridge dispatch model (`attachRoute`, `parseLuaResponse`)

The handler body installed by `attachRoute` (main.go / lua_engine.go) is a
straight-line function of two externally produced outcomes: reading the
request body (`requestToLuaTable`) and calling the script handler
(`L.CallByParam`).  Both are passed in as `Except` values.  The result is the
HTTP response together with two instrumentation counters: how many times the
handler was invoked and how many times the successful-return marshalling
(`parseLuaResponse` plus the body rendering) ran. -/

/-- gopher-lua values as they reach `parseLuaResponse`. -/
inductive LVal where
  | lnil
  | lbool (b : Bool)
  | lnum (q : ℚ)
  | lstr (s : String)
  | ltable (entries : List (LVal × LVal))

/-- The `String()` method of a Lua value, used by `luaTableToMap` to stringify
table keys and by the default marshalling case.  Number formatting and the
table representation (which embeds an address) are abstracted. -/
def lvalString : LVal → String
  | .lnil => "nil"
  | .lbool b => if b then "true" else "false"
  | .lnum q => toString q
  | .lstr s => s
  | .ltable _ => "table"

mutual
/-- Translation of `luaValueToGo` (main.go / lua_engine.go). -/
def luaValueToGo : LVal → Value
  | .lstr s => .vStr s
  | .lnum q => .vFloat q
  | .lbool b => .vBool b
  | .ltable t => .vObj (luaTableToMap t)
  | .lnil => .vStr (lvalString .lnil)

/-- Translation of `luaTableToMap` (main.go / lua_engine.go): every table entry
keyed by its stringified key. -/
def luaTableToMap : List (LVal × LVal) → List (String × Value)
  | [] => []
  | (k, v) :: rest => (lvalString k, luaValueToGo v) :: luaTableToMap rest
end

/-- A response body as handed to gin: `c.String`, `c.Data`, or `c.JSON`. -/
inductive BodyVal where
  | bstr (s : String)
  | bdata (bytes : List ℕ)
  | bjson (v : Value)

/-- An HTTP response as produced by the installed handler. -/
structure HttpResponse where
  status : ℤ
  headers : List (String × String)
  body : Option BodyVal

/-- Translation of `parseLuaResponse` (main.go / lua_engine.go): the three
values left on the Lua stack become status (200 unless a number), body
(nil omits the body; strings render as text; tables, booleans and numbers go
through JSON marshalling), and headers (only string-to-string table entries
are kept). -/
def parseLuaResponse (statusValue bodyValue headersValue : LVal) :
    ℤ × Option BodyVal × List (String × String) :=
  let status : ℤ :=
    match statusValue with
    | .lnum q => goTrunc q
    | _ => 200
  let body : Option BodyVal :=
    match bodyValue with
    | .lstr s => some (.bstr s)
    | .ltable t => some (.bjson (.vObj (luaTableToMap t)))
    | .lbool b => some (.bjson (.vBool b))
    | .lnum q => some (.bjson (.vFloat q))
    | .lnil => none
  let headers : List (String × String) :=
    match headersValue with
    | .ltable t =>
        t.filterMap fun kv =>
          match kv with
          | (.lstr k, .lstr v) => some (k, v)
          | _ => none
    | _ => []
  (status, body, headers)

/-- The body of the gin handler installed by `attachRoute` (main.go /
lua_engine.go), under the dispatch lock.  `reqParse` is the outcome of
`requestToLuaTable`, `handlerResult` the outcome of the single
`L.CallByParam` invocation.  The two counters record how many times the
handler was invoked and how many times the return values were marshalled
into a response. -/
def attachRouteHandler (reqParse : Except String LVal)
    (handlerResult : Except String (LVal × LVal × LVal)) :
    HttpResponse × ℕ × ℕ :=
  match reqParse with
  | .error e =>
      (⟨400, [], some (.bjson (.vObj [("error", .vStr e)]))⟩, 0, 0)
  | .ok _ =>
      match handlerResult with
      | .error e =>
          (⟨500, [], some (.bjson (.vObj [("error", .vStr e)]))⟩, 1, 0)
      | .ok (sv, bv, hv) =>
          let parsed := parseLuaResponse sv bv hv
          (⟨parsed.1, parsed.2.2, parsed.2.1⟩, 1, 1)

/-! ### Runtime lifecycle state machine (`runtimeState`, cmd/lunar/main.go)

`runtimeState` guards the live-runtime pointer with a `sync.RWMutex`.
`ServeHTTP` holds the read side for the whole request; `Swap` takes the write
side (which blocks until every read lock is released), swaps the pointer,
releases the lock, and only then closes the old runtime's engine.  Runtime
generations are numbered; `RtStep` is the induced transition relation. -/

/-- Lifecycle manager state: the generation of the live runtime, the
generations captured by in-flight requests (one entry per held read lock),
generations swapped out but not yet closed, generations whose engine has been
closed, and the next generation number a build would produce. -/
structure RtState where
  live : ℕ
  readers : List ℕ
  draining : List ℕ
  closed : List ℕ
  nextGen : ℕ

/-- Transitions of the lifecycle manager.
* `beginRequest`: `ServeHTTP` acquires the read lock and captures the current
  pointer; under the read lock the pointer cannot move, so the captured
  generation is the live one.
* `endRequest`: a request finishes and releases its read lock.
* `swap`: `Swap` acquires the write lock — granted only when no read lock is
  held — replaces the pointer with the freshly built runtime, and releases
  the lock; the old runtime starts draining.
* `closeOld`: after the swap, `old.Engine.Close()` runs on a swapped-out
  runtime. -/
inductive RtStep : RtState → RtState → Prop where
  | beginRequest (s : RtState) :
      RtStep s { s with readers := s.live :: s.readers }
  | endRequest (s : RtState) (g : ℕ) (hg : g ∈ s.readers) :
      RtStep s { s with readers := s.readers.erase g }
  | swap (s : RtState) (hdrain : s.readers = []) :
      RtStep s
        { live := s.nextGen
          readers := []
          draining := s.live :: s.draining
          closed := s.closed
          nextGen := s.nextGen + 1 }
  | closeOld (s : RtState) (g : ℕ) (hg : g ∈ s.draining) :
      RtStep s { s with draining := s.draining.erase g, closed := g :: s.closed }

/-- Startup state: generation 0 is live (built before serving begins), no
request in flight, nothing draining or closed. -/
def rtInit : RtState :=
  ⟨0, [], [], [], 1⟩

/-- States the lifecycle manager can actually be in. -/
def RtReachable (s : RtState) : Prop :=
  Relation.ReflTransGen RtStep rtInit s

/-- The state reached from startup once one request has acquired its read
lock. -/
def rtOneReader : RtState :=
  ⟨0, [0], [], [], 1⟩

/-! ### Reload callback (cmd/lunar/main.go) -/

/-- Process-level view for the reload path: the generation the live pointer
designates, the engines already closed, and whether the process exited. -/
structure ProcState where
  live : ℕ
  closedEngines : List ℕ
  exited : Bool

/-- Translation of `runtimeState.Swap` at the process level: point at the new
runtime, then close the previous one's engine. -/
def swapRuntime (p : ProcState) (next : ℕ) : ProcState :=
  { live := next, closedEngines := p.live :: p.closedEngines, exited := p.exited }

/-- Translation of `server.BuildRuntime` (router.go): build a fresh router and
engine (generation `gen`) and run the script.  If the script load fails, the
freshly created engine is closed and the error is returned — no runtime is
produced. -/
def BuildRuntime (gen : ℕ) (loadResult : Except String Unit) : Except String ℕ :=
  match loadResult with
  | .error e => .error e
  | .ok _ => .ok gen

/-- Translation of the watcher callback in `main` (cmd/lunar/main.go): rebuild
the runtime; on failure, log (`reload failed`) and return without touching
anything; on success, swap. -/
def reloadCallback (p : ProcState) (buildResult : Except String ℕ) : ProcState :=
  match buildResult with
  | .error _ => p
  | .ok g => swapRuntime p g

/-! ### Operation sequences over the document store -/

/-- One call against the document store, with its abstracted disk outcome. -/
inductive DbOp where
  | qry (c : String) (crit : Rec)
  | ins (c : String) (r : Rec) (diskOk : Bool)
  | upd (c : String) (crit patch : Rec) (diskOk : Bool)
  | del (c : String) (crit : Rec) (diskOk : Bool)

/-- The store state after one call. -/
def applyOp (s : Store) : DbOp → Store
  | .qry c crit => (Store.Query s c crit).2
  | .ins c r d => (Store.Insert s c r d).2
  | .upd c crit p d => (Store.Update s c crit p d).2
  | .del c crit d => (Store.Delete s c crit d).2

/-- The id an operation makes the store assign, if any: exactly the calls that
advance `nextID` assign it (an `Insert` of a record lacking an `id`). -/
def assignedOf (s : Store) (op : DbOp) : Option ℤ :=
  if (applyOp s op).nextID = s.nextID then none else some s.nextID

/-- All ids assigned over a sequence of calls, in call order. -/
def assignedIDs (s : Store) : List DbOp → List ℤ
  | [] => []
  | op :: ops =>
      match assignedOf s op with
      | some i => i :: assignedIDs (applyOp s op) ops
      | none => assignedIDs (applyOp s op) ops

/-- Invariant of the lifecycle manager: every held read lock captured the live
generation; the live generation is below the next build number; and every
draining or closed generation is strictly older than the live one. -/
def RtInv (s : RtState) : Prop :=
  (∀ g ∈ s.readers, g = s.live) ∧ s.live < s.nextGen ∧
    (∀ g ∈ s.draining, g < s.live) ∧ (∀ g ∈ s.closed, g < s.live)

/-- The matching contract in the spec's words: every criterion key must be
present in the record and `valuesEqual` to the criterion value (vacuously
true for empty criteria). -/
def specMatches (record criteria : Rec) : Prop :=
  ∀ kv ∈ criteria, ∃ actual,
    record.lookup kv.1 = some actual ∧ valuesEqual actual kv.2 = true

/-- Concrete file with one record of id 2 used in the C2 witness. -/
def dFile : List (String × List Rec) :=
  [("t", [[("id", Value.vInt 2)]])]

/-- A record holding one nested container (a nested map at heap address 7). -/
def exGoMap : GoMap := ⟨0, [("profile", .refV 7)]⟩

/-- Concrete store with one persisted-path collection for the C10 witness. -/
def sWitness : Store :=
  ⟨"db.json", [("t", [[("a", Value.vInt 1)]])], 1⟩

/-! ### Helper lemmas -/

theorem cloneRecord_eq (record : Rec) : cloneRecord record = record := by
  simp [cloneRecord]

theorem lookup_setKV_self {α : Type} (data : List (String × α)) (k : String) (v : α) :
    (setKV data k v).lookup k = some v := by
  induction data with
  | nil => simp [setKV]
  | cons p rest ih =>
      obtain ⟨k₁, v₁⟩ := p
      by_cases h : k₁ = k
      · simp [setKV, h, List.lookup]
      · have hk : (k == k₁) = false := by simpa using Ne.symm h
        simp [setKV, h, List.lookup, ih, hk]

theorem lookup_setKV_ne {α : Type} (data : List (String × α)) (k k₁ : String) (v : α)
    (h : k₁ ≠ k) : (setKV data k v).lookup k₁ = data.lookup k₁ := by
  have hk : (k₁ == k) = false := by simpa using h
  induction data with
  | nil => simp [setKV, List.lookup, hk]
  | cons p rest ih =>
      obtain ⟨k₂, v₂⟩ := p
      by_cases h₂ : k₂ = k
      · subst h₂
        simp [setKV, List.lookup, hk]
      · simp [setKV, h₂, List.lookup, ih]

theorem getColl_setKV_self (data : List (String × List Rec)) (c : String)
    (recs : List Rec) : getColl (setKV data c recs) c = recs := by
  simp [getColl, lookup_setKV_self]

theorem lt_goTrunc_add_one (q : ℚ) : q < (goTrunc q : ℚ) + 1 := by
  unfold goTrunc
  split
  · exact Int.lt_floor_add_one q
  · have h := Int.le_ceil q
    linarith

theorem le_idBump (acc : ℤ) (r : Rec) : acc ≤ idBump acc r := by
  cases h : (r.lookup "id").bind numberValue with
  | none => simp [idBump, h]
  | some q =>
      simp only [idBump, h]
      split <;> omega

theorem idBump_ge (acc : ℤ) (r : Rec) (q : ℚ)
    (h : (r.lookup "id").bind numberValue = some q) : goTrunc q ≤ idBump acc r := by
  simp only [idBump, h]
  split <;> omega

theorem le_foldl_idBump (l : List Rec) (acc : ℤ) : acc ≤ l.foldl idBump acc := by
  induction l generalizing acc with
  | nil => exact le_refl _
  | cons r rest ih => exact le_trans (le_idBump acc r) (ih _)

theorem foldl_idBump_ge (l : List Rec) (acc : ℤ) (r : Rec) (q : ℚ)
    (hr : r ∈ l) (h : (r.lookup "id").bind numberValue = some q) :
    goTrunc q ≤ l.foldl idBump acc := by
  induction l generalizing acc with
  | nil => cases hr
  | cons r₁ rest ih =>
      rcases List.mem_cons.mp hr with h₁ | h₁
      · subst h₁
        exact le_trans (idBump_ge acc r q h) (le_foldl_idBump rest _)
      · exact ih _ h₁

theorem le_foldl_outer (d : List (String × List Rec)) (acc : ℤ) :
    acc ≤ d.foldl (fun a p => p.2.foldl idBump a) acc := by
  induction d generalizing acc with
  | nil => exact le_refl _
  | cons p rest ih => exact le_trans (le_foldl_idBump p.2 acc) (ih _)

theorem foldl_outer_ge (d : List (String × List Rec)) (acc : ℤ) (c : String)
    (recs : List Rec) (r : Rec) (q : ℚ) (hc : (c, recs) ∈ d) (hr : r ∈ recs)
    (h : (r.lookup "id").bind numberValue = some q) :
    goTrunc q ≤ d.foldl (fun a p => p.2.foldl idBump a) acc := by
  induction d generalizing acc with
  | nil => cases hc
  | cons p rest ih =>
      rcases List.mem_cons.mp hc with h₁ | h₁
      · subst h₁
        exact le_trans (foldl_idBump_ge recs acc r q hr h) (le_foldl_outer rest _)
      · exact ih _ h₁

theorem maxID_nonneg (d : List (String × List Rec)) : 0 ≤ maxID d :=
  le_foldl_outer d 0

theorem maxID_ge (d : List (String × List Rec)) (c : String) (recs : List Rec)
    (r : Rec) (q : ℚ) (hc : (c, recs) ∈ d) (hr : r ∈ recs)
    (h : (r.lookup "id").bind numberValue = some q) : goTrunc q ≤ maxID d :=
  foldl_outer_ge d 0 c recs r q hc hr h

theorem applyOp_nextID (s : Store) (op : DbOp) :
    (applyOp s op).nextID = s.nextID ∨ (applyOp s op).nextID = s.nextID + 1 := by
  cases op with
  | qry c crit =>
      by_cases hc : c = "" <;> simp [applyOp, Store.Query, hc]
  | ins c r d =>
      by_cases hc : c = ""
      · simp [applyOp, Store.Insert, hc]
      · by_cases hid : ((cloneRecord r).lookup "id").isNone
        · right; simp [applyOp, Store.Insert, hc, hid]
        · left; simp [applyOp, Store.Insert, hc, hid]
  | upd c crit p d =>
      by_cases hc : c = "" <;> simp [applyOp, Store.Update, hc]
  | del c crit d =>
      by_cases hc : c = "" <;> simp [applyOp, Store.Delete, hc]

theorem applyOp_nextID_mono (s : Store) (op : DbOp) :
    s.nextID ≤ (applyOp s op).nextID := by
  rcases applyOp_nextID s op with h | h <;> omega

theorem assignedOf_some (s : Store) (op : DbOp) (i : ℤ)
    (h : assignedOf s op = some i) :
    i = s.nextID ∧ (applyOp s op).nextID = s.nextID + 1 := by
  unfold assignedOf at h
  split at h
  · cases h
  · rcases applyOp_nextID s op with h₂ | h₂
    · exact absurd h₂ (by assumption)
    · injection h with h₃
      exact ⟨h₃.symm, h₂⟩

theorem assignedIDs_lb (s : Store) (ops : List DbOp) :
    ∀ i ∈ assignedIDs s ops, s.nextID ≤ i := by
  induction ops generalizing s with
  | nil => intro i hi; simp [assignedIDs] at hi
  | cons op rest ih =>
      intro i hi
      cases h : assignedOf s op with
      | none =>
          simp only [assignedIDs, h] at hi
          exact le_trans (applyOp_nextID_mono s op) (ih _ _ hi)
      | some j =>
          simp only [assignedIDs, h] at hi
          rcases List.mem_cons.mp hi with h₁ | h₁
          · subst h₁
            exact le_of_eq (assignedOf_some s op i h).1.symm
          · have h₂ := (assignedOf_some s op j h).2
            have h₃ := ih (applyOp s op) i h₁
            omega

theorem assignedIDs_chain (s : Store) (ops : List DbOp) :
    List.Chain' (· < ·) (assignedIDs s ops) := by
  induction ops generalizing s with
  | nil => simp [assignedIDs]
  | cons op rest ih =>
      cases h : assignedOf s op with
      | none => simpa only [assignedIDs, h] using ih (applyOp s op)
      | some j =>
          simp only [assignedIDs, h]
          refine List.chain'_cons'.mpr ⟨?_, ih (applyOp s op)⟩
          intro b hb
          have hmem := List.mem_of_mem_head? hb
          have hlb := assignedIDs_lb (applyOp s op) rest b hmem
          have h₂ := assignedOf_some s op j h
          omega

theorem insert_no_id (s : Store) (c : String) (r : Rec) (hc : c ≠ "")
    (hid : r.lookup "id" = none) :
    Store.Insert s c r true =
      (.ok (setKV r "id" (.vInt s.nextID)),
        { s with
          nextID := s.nextID + 1
          data := setKV s.data c
            (getColl s.data c ++ [setKV r "id" (.vInt s.nextID)]) }) := by
  simp [Store.Insert, hc, cloneRecord_eq, hid, saveLocked]

theorem insert_with_id (s : Store) (c : String) (r : Rec) (hc : c ≠ "")
    (v : Value) (hid : r.lookup "id" = some v) :
    Store.Insert s c r true =
      (.ok r, { s with data := setKV s.data c (getColl s.data c ++ [r]) }) := by
  simp [Store.Insert, hc, cloneRecord_eq, hid, saveLocked]

theorem rtInv_init : RtInv rtInit := by
  simp [RtInv, rtInit]

theorem rtInv_step (s s₁ : RtState) (h : RtInv s) (hs : RtStep s s₁) : RtInv s₁ := by
  obtain ⟨h₁, h₂, h₃, h₄⟩ := h
  cases hs with
  | beginRequest =>
      refine ⟨?_, h₂, h₃, h₄⟩
      intro g hg
      rcases List.mem_cons.mp hg with h₅ | h₅
      · exact h₅
      · exact h₁ g h₅
  | endRequest g hg =>
      exact ⟨fun g₁ hg₁ => h₁ g₁ (List.mem_of_mem_erase hg₁), h₂, h₃, h₄⟩
  | swap hdrain =>
      refine ⟨by simp, by simp, ?_, ?_⟩
      · intro g hg
        rcases List.mem_cons.mp hg with h₅ | h₅
        · subst h₅; exact h₂
        · exact lt_trans (h₃ g h₅) h₂
      · intro g hg
        exact lt_trans (h₄ g hg) h₂
  | closeOld g hg =>
      refine ⟨h₁, h₂, fun g₁ hg₁ => h₃ g₁ (List.mem_of_mem_erase hg₁), ?_⟩
      intro g₁ hg₁
      rcases List.mem_cons.mp hg₁ with h₅ | h₅
      · subst h₅; exact h₃ g₁ hg
      · exact h₄ g₁ h₅

theorem rtInv_reachable (s : RtState) (h : RtReachable s) : RtInv s := by
  induction h with
  | refl => exact rtInv_init
  | tail _ hstep ih => exact rtInv_step _ _ ih hstep

/-- Claim C1: while requests are in flight, each one runs entirely against the
runtime generation it captured — in every reachable state every held read lock
designates the live generation, which is neither draining nor closed; and from
a state with in-flight requests no step can move the live pointer or close the
generation those requests hold, because the swap transition requires all read
locks to be released first. -/
theorem C1_requests_complete_on_captured_runtime (s : RtState) (h : RtReachable s) :
    (∀ g ∈ s.readers, g = s.live ∧ g ∉ s.draining ∧ g ∉ s.closed) ∧
      ∀ s₁, RtStep s s₁ → s.readers ≠ [] →
        s₁.live = s.live ∧ ∀ g ∈ s.readers, g ∉ s₁.closed := by
  obtain ⟨h₁, h₂, h₃, h₄⟩ := rtInv_reachable s h
  constructor
  · intro g hg
    have hgl := h₁ g hg
    refine ⟨hgl, ?_, ?_⟩
    · intro hmem
      have := h₃ g hmem
      omega
    · intro hmem
      have := h₄ g hmem
      omega
  · intro s₁ hs₁ hne
    cases hs₁ with
    | beginRequest =>
        refine ⟨rfl, ?_⟩
        intro g hg hmem
        have := h₄ g hmem
        have := h₁ g hg
        omega
    | endRequest g₂ hg₂ =>
        refine ⟨rfl, ?_⟩
        intro g hg hmem
        have := h₄ g hmem
        have := h₁ g hg
        omega
    | swap hdrain => exact absurd hdrain hne
    | closeOld g₂ hg₂ =>
        refine ⟨rfl, ?_⟩
        intro g hg hmem
        have hglive := h₁ g hg
        rcases List.mem_cons.mp hmem with h₅ | h₅
        · have := h₃ g₂ hg₂
          omega
        · have := h₄ g h₅
          omega

/-- Witness for C1 at the concrete reachable state with one in-flight
request. -/
theorem C1_requests_complete_on_captured_runtime_witness :
    0 = rtOneReader.live ∧ 0 ∉ rtOneReader.draining ∧ 0 ∉ rtOneReader.closed :=
  (C1_requests_complete_on_captured_runtime rtOneReader
      (Relation.ReflTransGen.single (RtStep.beginRequest rtInit))).1 0 (by decide)

/-- Claim C9: when the reload's build step fails (the script errors during
load), the watcher callback leaves the process state untouched — the live
pointer is not swapped, no engine is closed, and the process does not exit. -/
theorem C9_build_failure_keeps_old_runtime (p : ProcState) (gen : ℕ)
    (load : Except String Unit) (e : String) (h : load = .error e) :
    reloadCallback p (BuildRuntime gen load) = p := by
  subst h
  rfl

/-- Witness for C9 with a concrete failing script load. -/
theorem C9_build_failure_keeps_old_runtime_witness :
    reloadCallback ⟨0, [], false⟩ (BuildRuntime 1 (.error "script error")) =
      (⟨0, [], false⟩ : ProcState) :=
  C9_build_failure_keeps_old_runtime ⟨0, [], false⟩ 1 (.error "script error")
    "script error" rfl

theorem new_id_not_in_file (d : List (String × List Rec)) (c : String)
    (recs : List Rec) (r : Rec) (v : Value) (hc : (c, recs) ∈ d) (hr : r ∈ recs)
    (hv : r.lookup "id" = some v) :
    valuesEqual (.vInt (maxID d + 1)) v = false := by
  cases hnum : numberValue v with
  | some q =>
      have hle : goTrunc q ≤ maxID d :=
        maxID_ge d c recs r q hc hr (by rw [hv]; exact hnum)
      have hle₂ : (goTrunc q : ℚ) ≤ (maxID d : ℚ) := by exact_mod_cast hle
      have hlt : q < ((maxID d + 1 : ℤ) : ℚ) := by
        have h₁ := lt_goTrunc_add_one q
        push_cast
        push_cast at h₁ hle₂
        linarith
      have hn₁ : numberValue (Value.vInt (maxID d + 1)) = some ((maxID d + 1 : ℤ) : ℚ) :=
        rfl
      simp only [valuesEqual, hn₁, hnum, decide_eq_false_iff_not]
      intro hEq
      rw [← hEq] at hlt
      exact lt_irrefl _ hlt
  | none =>
      cases v with
      | vInt n => simp [numberValue] at hnum
      | vFloat q₁ => simp [numberValue] at hnum
      | vJsonNum raw parsed =>
          simp only [numberValue] at hnum
          subst hnum
          simp [valuesEqual, numberValue, deepEqual]
      | vNull => simp [valuesEqual, numberValue, deepEqual]
      | vBool b => simp [valuesEqual, numberValue, deepEqual]
      | vStr s => simp [valuesEqual, numberValue, deepEqual]
      | vArr items => simp [valuesEqual, numberValue, deepEqual]
      | vObj fields => simp [valuesEqual, numberValue, deepEqual]

/-- Claim C2: assigned ids are strictly increasing over any sequence of store
operations (hence never reused, also after deletes); opening a store from a
persisted file derives the next id as the file's maximum id plus one; and so
one further insert of a record lacking an `id` yields an id that is
`valuesEqual` to no id present in the file. -/
theorem C2_ids_monotone_and_fresh_after_reopen (s : Store) (ops : List DbOp)
    (path : String) (d : List (String × List Rec)) (c : String) (r : Rec)
    (hpath : path ≠ "") (hc : c ≠ "") (hr : r.lookup "id" = none) :
    List.Chain' (· < ·) (assignedIDs s ops) ∧
      (openStore path (some d)).nextID = maxID d + 1 ∧
      ∃ out s₁, Store.Insert (openStore path (some d)) c r true = (.ok out, s₁) ∧
        out.lookup "id" = some (.vInt (maxID d + 1)) ∧
        ∀ cName recs, (cName, recs) ∈ d → ∀ rec ∈ recs, ∀ v,
          rec.lookup "id" = some v →
            valuesEqual (.vInt (maxID d + 1)) v = false := by
  refine ⟨assignedIDs_chain s ops, by simp [openStore, hpath], ?_⟩
  have hopen : openStore path (some d) = ⟨path, d, maxID d + 1⟩ := by
    simp [openStore, hpath]
  rw [hopen]
  exact ⟨_, _, insert_no_id ⟨path, d, maxID d + 1⟩ c r hc hr,
    lookup_setKV_self r "id" _,
    fun cName recs hcr rec hrec v hv =>
      new_id_not_in_file d cName recs rec v hcr hrec hv⟩

/-- Witness for C2: reopening over `dFile` and inserting yields an id that is
not `valuesEqual` to the persisted id 2. -/
theorem C2_ids_monotone_and_fresh_after_reopen_witness :
    valuesEqual (.vInt (maxID dFile + 1)) (.vInt 2) = false := by
  obtain ⟨out, s₁, hins, hid, hfresh⟩ :=
    (C2_ids_monotone_and_fresh_after_reopen ⟨"", [], 1⟩ [] "db.json" dFile
        "users" [] (by decide) (by decide) rfl).2.2
  exact hfresh "t" [[("id", Value.vInt 2)]] (by simp [dFile])
    [("id", Value.vInt 2)] (by simp) (Value.vInt 2) rfl

/-- Claim C3: insert never overwrites an explicitly supplied id and appends
the record as given; a record lacking an id is assigned the store's `nextID`;
and two consecutive no-id inserts receive the ids `nextID` and `nextID + 1`,
which are strictly increasing and hence distinct. -/
theorem C3_insert_id_assignment (s : Store) (c : String) (r₁ r₂ : Rec)
    (v : Value) (hc : c ≠ "") :
    (r₁.lookup "id" = some v →
      ∃ s₁, Store.Insert s c r₁ true = (.ok r₁, s₁) ∧
        getColl s₁.data c = getColl s.data c ++ [r₁] ∧ s₁.nextID = s.nextID) ∧
    (r₁.lookup "id" = none →
      ∃ out s₁, Store.Insert s c r₁ true = (.ok out, s₁) ∧
        out.lookup "id" = some (.vInt s.nextID) ∧ s₁.nextID = s.nextID + 1) ∧
    (r₁.lookup "id" = none → r₂.lookup "id" = none →
      ∃ out₁ s₁ out₂ s₂,
        Store.Insert s c r₁ true = (.ok out₁, s₁) ∧
        Store.Insert s₁ c r₂ true = (.ok out₂, s₂) ∧
        out₁.lookup "id" = some (.vInt s.nextID) ∧
        out₂.lookup "id" = some (.vInt (s.nextID + 1)) ∧
        s.nextID < s.nextID + 1) := by
  refine ⟨?_, ?_, ?_⟩
  · intro h
    exact ⟨_, insert_with_id s c r₁ hc v h, getColl_setKV_self _ _ _, rfl⟩
  · intro h
    exact ⟨_, _, insert_no_id s c r₁ hc h, lookup_setKV_self r₁ "id" _, rfl⟩
  · intro h₁ h₂
    refine ⟨_, _, _, _, insert_no_id s c r₁ hc h₁, insert_no_id _ c r₂ hc h₂,
      lookup_setKV_self r₁ "id" _, lookup_setKV_self r₂ "id" _, by omega⟩

/-- Witness for C3: a concrete no-id insert bumps `nextID` from 1 to 2. -/
theorem C3_insert_id_assignment_witness :
    (Store.Insert ⟨"", [], 1⟩ "users" [] true).2.nextID = 2 := by
  obtain ⟨out, s₁, hins, hid, hnext⟩ :=
    (C3_insert_id_assignment ⟨"", [], 1⟩ "users" [] [] .vNull (by decide)).2.1 rfl
  rw [hins]
  exact hnext

/-- Claim C4: `matches` is vacuously true on empty criteria and otherwise
holds exactly when every criterion key is present with a `valuesEqual` value;
`valuesEqual` compares two numeric-like values (integer or floating forms,
including `json.Number`) by numeric value, and any other pair by deep
structural equality. -/
theorem C4_matches_valuesEqual_contract (record criteria : Rec) (a b : Value) :
    recMatches record [] = true ∧
    (recMatches record criteria = true ↔ specMatches record criteria) ∧
    (∀ qa qb, numberValue a = some qa → numberValue b = some qb →
      (valuesEqual a b = true ↔ qa = qb)) ∧
    ((numberValue a = none ∨ numberValue b = none) →
      valuesEqual a b = deepEqual a b) := by
  refine ⟨rfl, ?_, ?_, ?_⟩
  · cases criteria with
    | nil => simp [recMatches, specMatches]
    | cons kv₀ rest =>
        rw [recMatches, if_neg (by simp)]
        rw [List.all_eq_true]
        unfold specMatches
        constructor
        · intro h kv hkv
          have h₁ := h kv hkv
          cases hl : record.lookup kv.1 with
          | none => rw [hl] at h₁; cases h₁
          | some actual => rw [hl] at h₁; exact ⟨actual, rfl, h₁⟩
        · intro h kv hkv
          obtain ⟨actual, hl, hveq⟩ := h kv hkv
          rw [hl]
          exact hveq
  · intro qa qb ha hb
    simp [valuesEqual, ha, hb]
  · intro h
    rcases h with h | h
    · cases hb : numberValue b <;> simp [valuesEqual, h, hb]
    · cases ha : numberValue a <;> simp [valuesEqual, ha, h]

/-- Witness for C4: the integer 2 and the float 2.0 are `valuesEqual`. -/
theorem C4_matches_valuesEqual_contract_witness :
    valuesEqual (.vInt 2) (.vFloat 2) = true := by
  exact ((C4_matches_valuesEqual_contract [] [] (.vInt 2) (.vFloat 2)).2.2.1
      2 2 (by norm_num [numberValue]) rfl).mpr rfl

theorem lookup_isSome_iff {α : Type} (l : List (String × α)) (k : String) :
    (l.lookup k).isSome ↔ k ∈ l.map Prod.fst := by
  induction l with
  | nil => simp [List.lookup]
  | cons p rest ih =>
      obtain ⟨k₁, v₁⟩ := p
      by_cases h : k = k₁
      · simp [List.lookup, h]
      · have hk : (k == k₁) = false := by simpa using h
        simp [List.lookup, hk, ih, h]

/-- Claim C5: every operation rejects an empty collection name with an error
and leaves the store unchanged; with a non-empty name, query always succeeds,
never mutates, and returns exactly the clones of the matching records (the
empty sequence for an unknown collection). -/
theorem C5_empty_name_rejected_query_total (s : Store) (c : String)
    (crit r patch : Rec) (d : Bool) :
    Store.Query s "" crit = (.error "collection is required", s) ∧
    Store.Insert s "" r d = (.error "collection is required", s) ∧
    Store.Update s "" crit patch d = ((0, some "collection is required"), s) ∧
    Store.Delete s "" crit d = ((0, some "collection is required"), s) ∧
    (c ≠ "" →
      Store.Query s c crit =
        (.ok (((getColl s.data c).filter fun rec => recMatches rec crit).map
          cloneRecord), s) ∧
      (∀ x, (x ∈ ((getColl s.data c).filter fun rec =>
            recMatches rec crit).map cloneRecord) ↔
          ∃ rec ∈ getColl s.data c, recMatches rec crit = true ∧
            x = cloneRecord rec) ∧
      (s.data.lookup c = none → Store.Query s c crit = (.ok [], s))) := by
  refine ⟨by simp [Store.Query], by simp [Store.Insert], by simp [Store.Update],
    by simp [Store.Delete], ?_⟩
  intro hc
  refine ⟨by simp [Store.Query, hc], ?_, ?_⟩
  · intro x
    constructor
    · intro hx
      obtain ⟨a, ha, hax⟩ := List.mem_map.mp hx
      obtain ⟨ha₁, ha₂⟩ := List.mem_filter.mp ha
      exact ⟨a, ha₁, ha₂, hax.symm⟩
    · intro hx
      obtain ⟨a, ha₁, ha₂, hax⟩ := hx
      exact List.mem_map.mpr ⟨a, List.mem_filter.mpr ⟨ha₁, ha₂⟩, hax.symm⟩
  · intro hnone
    simp [Store.Query, hc, getColl, hnone]

/-- Witness for C5: querying an unknown collection of the fresh store yields
the empty sequence and no error. -/
theorem C5_empty_name_rejected_query_total_witness :
    Store.Query ⟨"", [], 1⟩ "users" [] = (.ok [], (⟨"", [], 1⟩ : Store)) :=
  ((C5_empty_name_rejected_query_total ⟨"", [], 1⟩ "users" [] [] [] true).2.2.2.2
      (by decide)).2.2 rfl

/-- Counterexample to C6 as stated: `cloneRecord` is a per-key shallow copy,
so the clone of a record with a nested container shares that container's heap
address with the caller's record — the stored copy is not free of sharing. -/
theorem C6_counterexample_nested_sharing :
    sharesNestedRef (cloneRecordAlias 1 exGoMap) exGoMap = true := by decide

/-- Claim C6 (amended): insert and query hand out shallow copies — a fresh
top-level map object carrying the same bindings, so top-level mutation of a
returned record cannot alter the store, but every nested container reference
is shared unchanged with the source record. -/
theorem C6_amended_shallow_copy (freshAddr : ℕ) (r : GoMap) (record : Rec)
    (h : freshAddr ≠ r.addr) :
    (cloneRecordAlias freshAddr r).addr ≠ r.addr ∧
    (cloneRecordAlias freshAddr r).fields = r.fields ∧
    nestedRefs (cloneRecordAlias freshAddr r) = nestedRefs r ∧
    cloneRecord record = record :=
  ⟨h, rfl, rfl, cloneRecord_eq record⟩

/-- Witness for the amended C6 at a concrete record. -/
theorem C6_amended_shallow_copy_witness :
    (cloneRecordAlias 1 exGoMap).addr ≠ exGoMap.addr :=
  (C6_amended_shallow_copy 1 exGoMap [] (by decide)).1

/-- Claim C7: the `keys()` operation the key/value module exposes returns the
sorted sequence of all keys currently in the store. -/
theorem C7_keys_sorted_complete (s : KVStore) :
    List.Sorted (· ≤ ·) (sugarKeys s) ∧
    (sugarKeys s).Perm (KVStore.Keys s) ∧
    ∀ k, k ∈ sugarKeys s ↔ (s.data.lookup k).isSome := by
  refine ⟨List.sorted_mergeSort' _, List.mergeSort_perm _ _, ?_⟩
  intro k
  unfold sugarKeys
  rw [(List.mergeSort_perm (KVStore.Keys s) _).mem_iff]
  exact (lookup_isSome_iff s.data k).symm

/-- Claim C8: when the script handler raises during execution, the caller
receives status 500 with a JSON object body carrying an `error` field holding
the error text; the handler was invoked exactly once (no retry) and the
return-value marshalling never ran. -/
theorem C8_handler_error_returns_500_json (req : LVal)
    (handlerResult : Except String (LVal × LVal × LVal)) (e : String)
    (h : handlerResult = .error e) :
    attachRouteHandler (.ok req) handlerResult =
      (⟨500, [], some (.bjson (.vObj [("error", .vStr e)]))⟩, 1, 0) := by
  subst h
  rfl

/-- Witness for C8 with a concrete failing handler call. -/
theorem C8_handler_error_returns_500_json_witness :
    attachRouteHandler (.ok .lnil) (.error "attempt to call a nil value") =
      (⟨500, [], some (.bjson (.vObj
        [("error", .vStr "attempt to call a nil value")]))⟩, 1, 0) :=
  C8_handler_error_returns_500_json .lnil (.error "attempt to call a nil value")
    "attempt to call a nil value" rfl

/-- Claim C10: when persisting fails, update and delete return a count of 0
together with the error even though the in-memory state already carries the
merge or removal — the mutation is not rolled back and the reported count
does not reflect it. -/
theorem C10_failed_save_mutates_but_reports_zero (s : Store) (c : String)
    (crit patch : Rec) (hc : c ≠ "") (hpath : s.path ≠ "") :
    Store.Update s c crit patch false =
      ((0, some "save failed"),
        { s with data := setKV s.data c ((getColl s.data c).map fun r =>
            if recMatches r crit then mergeRecord r patch else r) }) ∧
    Store.Delete s c crit false =
      ((0, some "save failed"),
        { s with data := setKV s.data c ((getColl s.data c).filter fun r =>
            !recMatches r crit) }) := by
  constructor
  · simp [Store.Update, hc, saveLocked, hpath]
  · simp [Store.Delete, hc, saveLocked, hpath]

/-- Witness for C10: the update matched one record (it is merged in memory)
yet the reported count is 0 and an error is returned. -/
theorem C10_failed_save_mutates_but_reports_zero_witness :
    (Store.Update sWitness "t" [("a", .vInt 1)] [("b", .vInt 2)] false).1 =
      (0, some "save failed") := by
  rw [(C10_failed_save_mutates_but_reports_zero sWitness "t" [("a", .vInt 1)]
      [("b", .vInt 2)] (by decide) (by decide)).1]

end Lander
